import Mathlib

/-!
Shallow embedding of the CSV bulk-import pipelines of the hotel dashboard
repository: the order, deposit, withdrawal (per-row and batched variants) and
agent import flows, together with the sequential identifier generators.

JavaScript primitives are modelled as follows: `Number.parseFloat` and
`Number.parseInt` return `Option` values (`none` models `NaN`); a cell read
`values[i]` past the end of the split row returns `none` (modelling
`undefined`); calling a string method on such an `undefined` cell is modelled
as a thrown exception (`RowClass.throws`), which the surrounding `try/catch`
of each import handler turns into an aborted run.  Date parsing by the host
(`new Date(s)` validity and `date-fns` parse/format) is environment dependent
and is therefore abstracted as a `DateOracle` parameter.  Numeric cell values
are modelled as rationals; this is sign- and NaN-faithful for the decimal
inputs the flows compare against zero (the model does not cover the literal
Infinity token).
-/

namespace Hotel

/-! ### Structural models of the JavaScript string primitives.
The core Lean string functions (String.splitOn, String.trim, ...) recurse on
byte positions through well-founded recursion, which the kernel cannot unfold
when a witness is checked by decide; the models below recurse structurally on
the character list instead. -/

/-- The ASCII whitespace characters trimmed by the flows (the inputs at issue
contain no further Unicode whitespace). -/
def jsWS (c : Char) : Bool := c == ' ' || c == '\t' || c == '\n' || c == '\r'

/-- Model of String.prototype.trim. -/
def jsTrim (s : String) : String :=
  String.mk (((s.data.dropWhile jsWS).reverse.dropWhile jsWS).reverse)

/-- Model of String.prototype.toLowerCase on the ASCII range. -/
def jsToLower (s : String) : String := String.mk (s.data.map Char.toLower)

/-- Accumulator loop of the single-character split. -/
def splitCharAux (sep : Char) : List Char → List Char → List String
  | acc, [] => [String.mk acc.reverse]
  | acc, c :: cs =>
    if c == sep then String.mk acc.reverse :: splitCharAux sep [] cs
    else splitCharAux sep (c :: acc) cs

/-- Model of String.prototype.split with a one-character separator: the empty
string splits to a single empty cell, and separators at the edges produce
empty cells, as in JS. -/
def splitChar (sep : Char) (s : String) : List String := splitCharAux sep [] s.data

/-- Whether pat is an initial segment of cs. -/
def matchesAt : List Char → List Char → Bool
  | [], _ => true
  | _ :: _, [] => false
  | p :: ps, c :: rest => p == c && matchesAt ps rest

/-- Walks to the first occurrence of pat and substitutes rep there. -/
def replFirstAux (pat rep : List Char) : List Char → List Char
  | [] => []
  | c :: cs =>
    if matchesAt pat (c :: cs) then rep ++ (c :: cs).drop pat.length
    else c :: replFirstAux pat rep cs

/-- Model of Array.prototype.join. -/
def joinSep (sep : String) : List String → String
  | [] => ""
  | [x] => x
  | x :: y :: rest => x ++ sep ++ joinSep sep (y :: rest)

/-- Accumulates a run of leading decimal digits: returns the value read, the
number of digits consumed, and the remaining characters. -/
def takeDigits : List Char → Nat × Nat × List Char
  | [] => (0, 0, [])
  | c :: cs =>
    if c.isDigit then
      let (v, n, r) := takeDigits cs
      ((c.toNat - '0'.toNat) * 10 ^ n + v, n + 1, r)
    else (0, 0, c :: cs)

/-- Exponent part of a JS float literal: optional sign then digits; if no
digit follows, the exponent marker is ignored (value 0), as parseFloat does. -/
def expDigits (r : List Char) : Int :=
  match r with
  | '-' :: r2 => let (v, n, _) := takeDigits r2; if n = 0 then 0 else -(v : Int)
  | '+' :: r2 => let (v, n, _) := takeDigits r2; if n = 0 then 0 else (v : Int)
  | _ => let (v, n, _) := takeDigits r; if n = 0 then 0 else (v : Int)

/-- Model of `Number.parseFloat` on an already-trimmed string: optional sign,
digits, optional fractional part, optional exponent; `none` models NaN. -/
def jsParseFloat (s : String) : Option ℚ :=
  let cs := s.data
  let (neg, cs1) :=
    match cs with
    | '-' :: r => (true, r)
    | '+' :: r => (false, r)
    | _ => (false, cs)
  let (ip, icnt, cs2) := takeDigits cs1
  let (fp, fcnt, cs3) :=
    match cs2 with
    | '.' :: r => takeDigits r
    | _ => (0, 0, cs2)
  if icnt = 0 ∧ fcnt = 0 then none
  else
    let mant : Nat := ip * 10 ^ fcnt + fp
    let sm : Int := if neg then -(mant : Int) else (mant : Int)
    let e : Int :=
      match cs3 with
      | 'e' :: r => expDigits r
      | 'E' :: r => expDigits r
      | _ => 0
    if 0 ≤ e then some (mkRat (sm * ((10 ^ e.toNat : Nat) : Int)) (10 ^ fcnt))
    else some (mkRat sm (10 ^ fcnt * 10 ^ (-e).toNat))

/-- Model of `Number.parseInt(s, 10)` on an already-trimmed string: optional
sign then digits; `none` models NaN. -/
def jsParseInt (s : String) : Option Int :=
  let cs := s.data
  let (neg, cs1) :=
    match cs with
    | '-' :: r => (true, r)
    | '+' :: r => (false, r)
    | _ => (false, cs)
  let (v, n, _) := takeDigits cs1
  if n = 0 then none else some (if neg then -(v : Int) else (v : Int))

/-- Reading `values[i]` from a split row: `none` models `undefined`. -/
def cellAt (values : List String) (i : Nat) : Option String := values.get? i

/-- Model of `Number.parseFloat(values[i])`: parseFloat of undefined is NaN. -/
def jsParseFloatCell (c : Option String) : Option ℚ := c.bind jsParseFloat

/-- Model of `Number.parseInt(values[i], 10)` on a possibly-missing cell. -/
def jsParseIntCell (c : Option String) : Option Int := c.bind jsParseInt

/-- Model of `String.prototype.padStart(n, c)`. -/
def jsPadStart (n : Nat) (c : Char) (s : String) : String :=
  if n ≤ s.length then s
  else String.mk (List.replicate (n - s.length) c) ++ s

/-- Model of `String.prototype.replace(pat, rep)` with a string pattern:
replaces only the first occurrence. -/
def jsReplaceFirst (s pat rep : String) : String :=
  String.mk (replFirstAux pat.data rep.data s.data)

/-- Abstraction of the host date facilities used by the import flows: `ok s`
says whether parsing the string yields a valid date, `fmt s` is the
yyyy-MM-dd rendering of the parsed date, and `today` is the yyyy-MM-dd
rendering of the current date. -/
structure DateOracle where
  ok : String → Bool
  fmt : String → String
  today : String

/-- Outcome of processing one data line of the CSV body. -/
inductive RowClass (R : Type) where
  | skip : RowClass R
  | invalid : RowClass R
  | valid (r : R) : RowClass R
  | throws : RowClass R
deriving DecidableEq, Repr

/-- Running counters and accumulated records of one import run. -/
structure ImportState (R : Type) where
  success : Nat
  error : Nat
  records : List R
deriving DecidableEq, Repr

/-- The row loop of an import handler: each data line is classified and the
counters updated; a thrown row aborts the loop, surfacing the records already
produced before the abort. -/
def runLines {R : Type} (c : String → RowClass R) :
    ImportState R → List String → Except (List R) (ImportState R)
  | st, [] => .ok st
  | st, l :: ls =>
    match c l with
    | .skip => runLines c st ls
    | .invalid => runLines c { st with error := st.error + 1 } ls
    | .valid r =>
      runLines c { st with success := st.success + 1, records := st.records ++ [r] } ls
    | .throws => .error st.records

/-- Result of the shared CSV preamble of every import handler. -/
inductive HeaderResult where
  | emptyInput : HeaderResult
  | tooFewLines : HeaderResult
  | missing (ms : List String) : HeaderResult
  | okHeader (header : List String) (dataLines : List String) : HeaderResult
deriving DecidableEq, Repr

/-- The header cells of the input: first line of the trimmed text, split on
commas, each cell trimmed and lower-cased. -/
def headerOf (csv : String) : List String :=
  (splitChar ',' ((splitChar '\n' (jsTrim csv)).headD "")).map
    (fun h => jsToLower (jsTrim h))

/-- The required column names absent from the header, in required order. -/
def missingColumns (required : List String) (csv : String) : List String :=
  required.filter (fun f => !((headerOf csv).contains f))

/-- Shared preamble of every handleImport: reject empty input, split the
trimmed text into lines, require at least a header and one data line,
lower-case and trim the header cells, and require every needed column name. -/
def parseCsv (required : List String) (csv : String) : HeaderResult :=
  if jsTrim csv = "" then .emptyInput
  else
    let lines := splitChar '\n' (jsTrim csv)
    if lines.length < 2 then .tooFewLines
    else
      let ms := missingColumns required csv
      if ms.isEmpty then .okHeader (headerOf csv) (lines.drop 1) else .missing ms

/-- Final outcome of one import handler invocation.  `aborted` carries the
records already handed to the store when the run threw (empty for the batched
variant, whose single commit phase never runs on a throw). -/
inductive ImportOutcome (R : Type) where
  | emptyInput : ImportOutcome R
  | tooFewLines : ImportOutcome R
  | missingFields (ms : List String) : ImportOutcome R
  | aborted (committed : List R) : ImportOutcome R
  | completed (st : ImportState R) : ImportOutcome R
deriving DecidableEq, Repr

/-- The single user-visible error message of a structurally failed run. -/
def ImportOutcome.errorMessage {R : Type} : ImportOutcome R → Option String
  | .emptyInput => some "Please enter or upload CSV data"
  | .tooFewLines => some "CSV must contain at least a header row and one data row"
  | .missingFields ms =>
    some ("CSV is missing required fields: " ++ joinSep ", " ms)
  | _ => none

/-- Records handed to the store by a run (all of them for a completed run,
the pre-abort ones for an aborted run). -/
def ImportOutcome.committed {R : Type} : ImportOutcome R → List R
  | .completed st => st.records
  | .aborted recs => recs
  | _ => []

/-- Wraps the loop result into the outcome.  `keep` is true for the per-row
flows, whose valid records were already handed to the store when the loop
threw; the batched flow commits nothing on a throw. -/
def finishRun {R : Type} (keep : Bool) :
    Except (List R) (ImportState R) → ImportOutcome R
  | .ok st => .completed st
  | .error recs => .aborted (if keep then recs else [])

/-- The common shape of all five import handlers: the structural preamble,
then the row loop with a per-flow classifier resolved from the header. -/
def importWith {R : Type} (required : List String)
    (cl : List String → String → RowClass R) (keep : Bool) (csv : String) :
    ImportOutcome R :=
  match parseCsv required csv with
  | .emptyInput => .emptyInput
  | .tooFewLines => .tooFewLines
  | .missing ms => .missingFields ms
  | .okHeader header dataLines =>
    finishRun keep (runLines (cl header) ⟨0, 0, []⟩ dataLines)

/-- A stored client record: `shopId` is the natural key resolved by imports. -/
structure Client where
  shopId : String
  clientName : String
  agent : String
deriving DecidableEq, Repr

/-- The canonical payment mode labels, in source order. -/
def canonicalModes : List String := ["Crypto", "Online Banking", "Ewallet"]

/-- Lower-cased synonyms normalized to the Crypto label. -/
def cryptoSyns : List String := ["crypto", "cryptocurrency", "bitcoin", "eth", "btc"]

/-- Lower-cased synonyms normalized to the Online Banking label. -/
def onlineBankingSyns : List String := ["online", "online banking", "internet banking"]

/-- Lower-cased synonyms normalized to the Ewallet label. -/
def ewalletSyns : List String := ["ewallet", "e-wallet", "digital wallet", "wallet"]

/-- Payment mode normalization of the withdrawal flows: exact case-sensitive
match against the canonical labels first; otherwise the trimmed, lower-cased
cell is looked up in the three synonym tables; otherwise the mode is
unrecognized. -/
def wNormalizePaymentMode (s : String) : Option String :=
  if canonicalModes.contains s then some s
  else
    let n := jsToLower (jsTrim s)
    if cryptoSyns.contains n then some "Crypto"
    else if onlineBankingSyns.contains n then some "Online Banking"
    else if ewalletSyns.contains n then some "Ewallet"
    else none

/-! ### Withdrawal bulk import, per-row variant
(src/components/modals/bulk-withdrawal-modal.tsx: each valid row is handed to
the store immediately through addWithdrawal). -/

/-- Required column names of both withdrawal flows and the deposit flow. -/
def wRequired : List String := ["shop id", "date", "amount", "payment mode"]

/-- Column indices resolved once from the header. -/
structure WIdx where
  shopId : Nat
  date : Nat
  amount : Nat
  paymentMode : Nat

/-- Indices as computed by the four header.indexOf calls. -/
def wIdxOf (header : List String) : WIdx :=
  ⟨header.findIdx (· == "shop id"), header.findIdx (· == "date"),
    header.findIdx (· == "amount"), header.findIdx (· == "payment mode")⟩

/-- A withdrawal record as handed to addWithdrawal (the generated id is not
modelled: it does not influence any import outcome).  `shopId` is `none` when
the row had no cell at the shop id column (JS stores `undefined`). -/
structure WRecord where
  shopId : Option String
  clientName : String
  agent : String
  date : String
  amount : ℚ
  paymentMode : String
deriving DecidableEq, Repr

/-- Loop body of the per-row withdrawal import: blank lines are skipped; an
unresolved shop id yields placeholder client fields; an unparseable date is
replaced by the formatted current date; a NaN or non-positive amount rejects
the row; the payment mode is normalized or the row rejected — except that a
missing payment-mode cell throws (undefined.trim()) after the exact-match
test fails. -/
def wClassify (clients : List Client) (d : DateOracle) (ix : WIdx)
    (line : String) : RowClass WRecord :=
  if jsTrim line = "" then .skip
  else
    let values := (splitChar ',' line).map jsTrim
    let shopId := cellAt values ix.shopId
    let client : Option Client :=
      match shopId with
      | some s => clients.find? (fun c => c.shopId == s)
      | none => none
    let clientName :=
      match client with
      | some c => if c.clientName = "" then "Unknown Client" else c.clientName
      | none => "Unknown Client"
    let agent :=
      match client with
      | some c => if c.agent = "" then "Unknown Agent" else c.agent
      | none => "Unknown Agent"
    let wdate :=
      match cellAt values ix.date with
      | some s => if d.ok s then d.fmt s else d.today
      | none => d.today
    match jsParseFloatCell (cellAt values ix.amount) with
    | none => .invalid
    | some amount =>
      if amount ≤ 0 then .invalid
      else
        match cellAt values ix.paymentMode with
        | none => .throws
        | some p =>
          match wNormalizePaymentMode p with
          | some mode => .valid ⟨shopId, clientName, agent, wdate, amount, mode⟩
          | none => .invalid

/-- The per-row withdrawal import handler. -/
def wHandleImport (clients : List Client) (d : DateOracle) (csv : String) :
    ImportOutcome WRecord :=
  importWith wRequired (fun header => wClassify clients d (wIdxOf header)) true csv

/-! ### Withdrawal bulk import, batched variant
(src/unnamed/part_002: valid rows accumulate and are committed afterwards in
Firestore write batches of at most BATCH_SIZE documents). -/

/-- A withdrawal as accumulated by the batched variant.  The date field is the
raw cell when it parsed to a valid date and `none` when the current instant
was substituted. -/
structure BWRecord where
  shopId : Option String
  clientName : String
  agent : String
  date : Option String
  amount : ℚ
  paymentMode : String
deriving DecidableEq, Repr

/-- Loop body of the batched withdrawal import: identical to the per-row
variant except that a non-blank row splitting into fewer than 4 cells is
rejected before any cell is read by column index. -/
def wbClassify (clients : List Client) (d : DateOracle) (ix : WIdx)
    (line : String) : RowClass BWRecord :=
  if jsTrim line = "" then .skip
  else
    let values := (splitChar ',' line).map jsTrim
    if values.length < 4 then .invalid
    else
      let shopId := cellAt values ix.shopId
      let client : Option Client :=
        match shopId with
        | some s => clients.find? (fun c => c.shopId == s)
        | none => none
      let clientName :=
        match client with
        | some c => if c.clientName = "" then "Unknown Client" else c.clientName
        | none => "Unknown Client"
      let agent :=
        match client with
        | some c => if c.agent = "" then "Unknown Agent" else c.agent
        | none => "Unknown Agent"
      let wdate :=
        match cellAt values ix.date with
        | some s => if d.ok s then some s else none
        | none => none
      match jsParseFloatCell (cellAt values ix.amount) with
      | none => .invalid
      | some amount =>
        if amount ≤ 0 then .invalid
        else
          match cellAt values ix.paymentMode with
          | none => .throws
          | some p =>
            match wNormalizePaymentMode p with
            | some mode => .valid ⟨shopId, clientName, agent, wdate, amount, mode⟩
            | none => .invalid

/-- The batched withdrawal import handler.  On a throw nothing has been
committed: the batch phase only runs after the whole loop succeeds. -/
def wbHandleImport (clients : List Client) (d : DateOracle) (csv : String) :
    ImportOutcome BWRecord :=
  importWith wRequired (fun header => wbClassify clients d (wIdxOf header)) false csv

/-- Firestore write-batch chunk size used by the batched variant. -/
def BATCH_SIZE : Nat := 450

/-- The batch loop: slice(i, i + BATCH_SIZE) for i = 0, BATCH_SIZE, ... —
consecutive chunks of at most BATCH_SIZE records each. -/
def chunks {R : Type} : List R → List (List R)
  | [] => []
  | x :: xs => (x :: xs).take BATCH_SIZE :: chunks ((x :: xs).drop BATCH_SIZE)
termination_by l => l.length
decreasing_by
  simp [BATCH_SIZE]
  omega

/-- The write batches submitted by one batched-withdrawal run. -/
def wbCommittedChunks (o : ImportOutcome BWRecord) : List (List BWRecord) :=
  chunks o.committed

/-! ### Deposit bulk import
(src/components/modals/bulk-deposit-modal.tsx). -/

/-- A deposit record as handed to addDeposit. -/
structure DRecord where
  shopId : String
  clientName : String
  agent : String
  date : String
  amount : ℚ
  paymentMode : String
deriving DecidableEq, Repr

/-- Loop body of the deposit import: blank lines are skipped; an unresolved
shop id rejects the row; an unparseable MM/dd/yyyy date is replaced by the
formatted current date; a NaN or non-positive amount rejects the row; the
payment mode must match a canonical label exactly (no synonym table in this
flow). -/
def dClassify (clients : List Client) (m : DateOracle) (ix : WIdx)
    (line : String) : RowClass DRecord :=
  if jsTrim line = "" then .skip
  else
    let values := (splitChar ',' line).map jsTrim
    match cellAt values ix.shopId with
    | none => .invalid
    | some sid =>
      match clients.find? (fun c => c.shopId == sid) with
      | none => .invalid
      | some c =>
        let ddate :=
          match cellAt values ix.date with
          | some s => if m.ok s then m.fmt s else m.today
          | none => m.today
        match jsParseFloatCell (cellAt values ix.amount) with
        | none => .invalid
        | some amount =>
          if amount ≤ 0 then .invalid
          else
            match cellAt values ix.paymentMode with
            | none => .invalid
            | some p =>
              if canonicalModes.contains p then
                .valid ⟨sid, c.clientName, c.agent, ddate, amount, p⟩
              else .invalid

/-- The deposit import handler. -/
def dHandleImport (clients : List Client) (m : DateOracle) (csv : String) :
    ImportOutcome DRecord :=
  importWith wRequired (fun header => dClassify clients m (wIdxOf header)) true csv

/-! ### Order bulk import
(src/unnamed/part_001).  The loop parses the date cell into a Date object but
discards the result: the record stores the raw cell text, or null when the
cell is empty or missing. -/

/-- Required column names of the order flow. -/
def oRequired : List String := ["shop id", "date", "location", "price", "status"]

/-- The closed set of order status labels. -/
def orderStatuses : List String := ["Pending", "Processing", "Completed"]

/-- Column indices of the order flow. -/
structure OIdx where
  shopId : Nat
  date : Nat
  location : Nat
  price : Nat
  status : Nat

/-- Indices as computed by the five header.indexOf calls of the order flow. -/
def oIdxOf (header : List String) : OIdx :=
  ⟨header.findIdx (· == "shop id"), header.findIdx (· == "date"),
    header.findIdx (· == "location"), header.findIdx (· == "price"),
    header.findIdx (· == "status")⟩

/-- An order record as handed to addOrder: `date` is the raw cell text (none
models null, stored when the cell is empty or missing); `location` is the raw
cell (none models undefined). -/
structure ORecord where
  shopId : String
  clientName : String
  agent : String
  date : Option String
  location : Option String
  price : ℚ
  status : String
deriving DecidableEq, Repr

/-- Loop body of the order import: blank lines are skipped; an unresolved
shop id rejects the row; the date cell is stored raw (null when falsy) and
never causes rejection; a NaN or non-positive price rejects the row; the
status must match a closed label set exactly. -/
def oClassify (clients : List Client) (ix : OIdx) (line : String) :
    RowClass ORecord :=
  if jsTrim line = "" then .skip
  else
    let values := (splitChar ',' line).map jsTrim
    match cellAt values ix.shopId with
    | none => .invalid
    | some sid =>
      match clients.find? (fun c => c.shopId == sid) with
      | none => .invalid
      | some c =>
        let odate : Option String :=
          match cellAt values ix.date with
          | none => none
          | some s => if s = "" then none else some s
        match jsParseFloatCell (cellAt values ix.price) with
        | none => .invalid
        | some price =>
          if price ≤ 0 then .invalid
          else
            match cellAt values ix.status with
            | none => .invalid
            | some s =>
              if orderStatuses.contains s then
                .valid ⟨sid, c.clientName, c.agent, odate,
                  cellAt values ix.location, price, s⟩
              else .invalid

/-- The order import handler. -/
def oHandleImport (clients : List Client) (csv : String) :
    ImportOutcome ORecord :=
  importWith oRequired (fun header => oClassify clients (oIdxOf header)) true csv

/-! ### Agent bulk import
(src/components/team-performance/agent-import-modal.tsx). -/

/-- Required column names of the agent flow. -/
def aRequired : List String :=
  ["agent name", "added today", "monthly added", "total deposits"]

/-- Column indices of the agent flow. -/
structure AIdx where
  name : Nat
  addedToday : Nat
  monthlyAdded : Nat
  totalDeposits : Nat

/-- Indices as computed by the four header.indexOf calls of the agent flow. -/
def aIdxOf (header : List String) : AIdx :=
  ⟨header.findIdx (· == "agent name"), header.findIdx (· == "added today"),
    header.findIdx (· == "monthly added"),
    header.findIdx (· == "total deposits")⟩

/-- An agent record as handed to addAgent (openAccounts defaults to 0). -/
structure ARecord where
  name : String
  addedToday : Int
  monthlyAdded : Int
  openAccounts : Int
  totalDeposits : ℚ
deriving DecidableEq, Repr

/-- Loop body of the agent import: blank lines are skipped; a missing or
empty name rejects the row; the two integer fields and the deposits field are
rejected if NaN or strictly negative (zero is accepted). -/
def aClassify (ix : AIdx) (line : String) : RowClass ARecord :=
  if jsTrim line = "" then .skip
  else
    let values := (splitChar ',' line).map jsTrim
    match cellAt values ix.name with
    | none => .invalid
    | some name =>
      if name = "" then .invalid
      else
        match jsParseIntCell (cellAt values ix.addedToday),
            jsParseIntCell (cellAt values ix.monthlyAdded),
            jsParseFloatCell (cellAt values ix.totalDeposits) with
        | some a, some mo, some t =>
          if a < 0 ∨ mo < 0 ∨ t < 0 then .invalid
          else .valid ⟨name, a, mo, 0, t⟩
        | _, _, _ => .invalid

/-- The agent import handler. -/
def aHandleImport (csv : String) : ImportOutcome ARecord :=
  importWith aRequired (fun header => aClassify (aIdxOf header)) true csv

/-! ### Sequential identifier generators
(generateOrderId, generateDepositId, generateWithdrawalId of the client
context).  Each reads the identifier of the LAST element of the stored list,
strips the two-letter prefix, parses the remainder as an integer, adds one
and renders the result padded to at least five characters.  A parse failure
(NaN) propagates into the literal text NaN. -/

/-- A stored order, reduced to the field the generator reads. -/
structure StoredOrder where
  orderId : String
deriving DecidableEq, Repr

/-- A stored deposit, reduced to the field the generator reads. -/
structure StoredDeposit where
  depositId : String
deriving DecidableEq, Repr

/-- A stored withdrawal, reduced to the field the generator reads. -/
structure StoredWithdrawal where
  withdrawalId : String
deriving DecidableEq, Repr

/-- Renders prefix + String(n + 1).padStart(5, "0"), with NaN propagation. -/
def renderNextId (pre : String) (last : Option Int) : String :=
  match last with
  | some n => pre ++ jsPadStart 5 '0' (toString (n + 1))
  | none => pre ++ jsPadStart 5 '0' "NaN"

/-- generateOrderId: numeric suffix of the last stored order (0 when none),
plus one, zero-padded to five characters after the OR prefix. -/
def generateOrderId (orders : List StoredOrder) : String :=
  renderNextId "OR"
    (match orders.getLast? with
     | some o => jsParseInt (jsReplaceFirst o.orderId "OR" "")
     | none => some 0)

/-- generateDepositId: same construction with the DP prefix. -/
def generateDepositId (deposits : List StoredDeposit) : String :=
  renderNextId "DP"
    (match deposits.getLast? with
     | some o => jsParseInt (jsReplaceFirst o.depositId "DP" "")
     | none => some 0)

/-- generateWithdrawalId: same construction with the WD prefix. -/
def generateWithdrawalId (withdrawals : List StoredWithdrawal) : String :=
  renderNextId "WD"
    (match withdrawals.getLast? with
     | some o => jsParseInt (jsReplaceFirst o.withdrawalId "WD" "")
     | none => some 0)

/-- Modelled from the spec: the spec says the generator inspects the HIGHEST
existing identifier numeric suffix and increments it.  This definition
follows those words, for comparison with the source generators above. -/
def generateOrderIdSpec (orders : List StoredOrder) : String :=
  let suffixes := orders.filterMap
    (fun o => jsParseInt (jsReplaceFirst o.orderId "OR" ""))
  "OR" ++ jsPadStart 5 '0' (toString (suffixes.foldl max 0 + 1))

/-! ### Counting the rows of a run -/

/-- Whether a classification produced a record. -/
def isValidClass {R : Type} : RowClass R → Bool
  | .valid _ => true
  | _ => false

/-- Whether a classification rejected the row. -/
def isInvalidClass {R : Type} : RowClass R → Bool
  | .invalid => true
  | _ => false

/-- Number of data lines of a run that pass row validation. -/
def countValid {R : Type} (c : String → RowClass R) (ls : List String) : Nat :=
  (ls.filter (fun l => isValidClass (c l))).length

/-- Number of data lines of a run that fail row validation. -/
def countInvalid {R : Type} (c : String → RowClass R) (ls : List String) : Nat :=
  (ls.filter (fun l => isInvalidClass (c l))).length

/-- The records produced by the valid rows, in input order. -/
def validRecords {R : Type} (c : String → RowClass R) (ls : List String) : List R :=
  ls.filterMap (fun l => match c l with | .valid r => some r | _ => none)

/-- Number of data lines that are not blank or whitespace-only. -/
def nonblankCount (ls : List String) : Nat :=
  (ls.filter (fun l => !(jsTrim l == ""))).length

/-- A run with no thrown row completes, and its final counters and record
list are exactly the per-row classification tallies. -/
theorem runLines_eq {R : Type} (c : String → RowClass R) (ls : List String)
    (st : ImportState R) (h : ∀ l ∈ ls, c l ≠ RowClass.throws) :
    runLines c st ls = .ok ⟨st.success + countValid c ls,
      st.error + countInvalid c ls, st.records ++ validRecords c ls⟩ := by
  induction ls generalizing st with
  | nil => simp [runLines, countValid, countInvalid, validRecords]
  | cons l ls ih =>
    have hl : c l ≠ RowClass.throws := h l (by simp)
    have hrest : ∀ x ∈ ls, c x ≠ RowClass.throws := fun x hx => h x (by simp [hx])
    cases hc : c l with
    | skip =>
      simp only [runLines, hc, ih _ hrest]
      simp [countValid, countInvalid, validRecords, hc, isValidClass, isInvalidClass]
    | invalid =>
      simp only [runLines, hc, ih _ hrest]
      simp [countValid, countInvalid, validRecords, hc, isValidClass, isInvalidClass]
      omega
    | valid r =>
      simp only [runLines, hc, ih _ hrest]
      simp [countValid, countInvalid, validRecords, hc, isValidClass, isInvalidClass]
      omega
    | throws => exact absurd hc hl

/-- Valid and invalid rows together are exactly the non-blank data lines,
for a classifier that skips precisely the blank lines and throws nowhere. -/
theorem counts_partition {R : Type} (c : String → RowClass R) (ls : List String)
    (hskip : ∀ l ∈ ls, (c l = RowClass.skip ↔ jsTrim l = ""))
    (hth : ∀ l ∈ ls, c l ≠ RowClass.throws) :
    countValid c ls + countInvalid c ls = nonblankCount ls := by
  induction ls with
  | nil => simp [countValid, countInvalid, nonblankCount]
  | cons l ls ih =>
    have hl := hskip l (by simp)
    have hlth := hth l (by simp)
    have ihh := ih (fun x hx => hskip x (by simp [hx])) (fun x hx => hth x (by simp [hx]))
    cases hc : c l with
    | skip =>
      have hb : jsTrim l = "" := hl.mp hc
      simp [countValid, countInvalid, nonblankCount, hc, isValidClass, isInvalidClass, hb] at ihh ⊢
      omega
    | invalid =>
      have hb : ¬ jsTrim l = "" := fun hb => by simp [hl.mpr hb] at hc
      simp [countValid, countInvalid, nonblankCount, hc, isValidClass, isInvalidClass, hb] at ihh ⊢
      omega
    | valid r =>
      have hb : ¬ jsTrim l = "" := fun hb => by simp [hl.mpr hb] at hc
      simp [countValid, countInvalid, nonblankCount, hc, isValidClass, isInvalidClass, hb] at ihh ⊢
      omega
    | throws => exact absurd hc hlth

/-- Every record accumulated by a run, whether it completed or aborted, was
produced by some data line the classifier declared valid. -/
theorem runLines_mem {R : Type} (c : String → RowClass R) (ls : List String)
    (st : ImportState R) (r : R)
    (h : (match runLines c st ls with
          | .ok st2 => r ∈ st2.records
          | .error recs => r ∈ recs)) :
    r ∈ st.records ∨ ∃ l ∈ ls, c l = RowClass.valid r := by
  induction ls generalizing st with
  | nil => simp only [runLines] at h; exact Or.inl h
  | cons l ls ih =>
    cases hc : c l with
    | skip =>
      simp only [runLines, hc] at h
      rcases ih _ h with h1 | ⟨x, hx, hcx⟩
      · exact Or.inl h1
      · exact Or.inr ⟨x, by simp [hx], hcx⟩
    | invalid =>
      simp only [runLines, hc] at h
      rcases ih _ h with h1 | ⟨x, hx, hcx⟩
      · exact Or.inl h1
      · exact Or.inr ⟨x, by simp [hx], hcx⟩
    | valid r2 =>
      simp only [runLines, hc] at h
      rcases ih _ h with h1 | ⟨x, hx, hcx⟩
      · rcases List.mem_append.mp h1 with h2 | h2
        · exact Or.inl h2
        · simp at h2
          exact Or.inr ⟨l, by simp, by simp [hc, h2]⟩
      · exact Or.inr ⟨x, by simp [hx], hcx⟩
    | throws =>
      simp only [runLines, hc] at h
      exact Or.inl h

/-! ### Generic lemmas about the shared handler skeleton -/

/-- The status of a row classification, with the produced record forgotten. -/
inductive RowStatus where
  | skip : RowStatus
  | invalid : RowStatus
  | valid : RowStatus
  | throws : RowStatus
deriving DecidableEq, Repr

/-- Forgetful map from classifications to statuses. -/
def statusOf {R : Type} : RowClass R → RowStatus
  | .skip => .skip
  | .invalid => .invalid
  | .valid _ => .valid
  | .throws => .throws

/-- Empty input aborts any flow with the empty-input message. -/
theorem importWith_empty {R : Type} (required : List String)
    (cl : List String → String → RowClass R) (keep : Bool) (csv : String)
    (h : jsTrim csv = "") : importWith required cl keep csv = .emptyInput := by
  simp [importWith, parseCsv, h]

/-- Fewer than two lines abort any flow with the too-few-lines message. -/
theorem importWith_short {R : Type} (required : List String)
    (cl : List String → String → RowClass R) (keep : Bool) (csv : String)
    (h1 : jsTrim csv ≠ "") (h2 : (splitChar '\n' (jsTrim csv)).length < 2) :
    importWith required cl keep csv = .tooFewLines := by
  simp [importWith, parseCsv, h1, h2]

/-- A missing required column aborts any flow, reporting exactly the list of
missing column names. -/
theorem importWith_missing {R : Type} (required : List String)
    (cl : List String → String → RowClass R) (keep : Bool) (csv : String)
    (h1 : jsTrim csv ≠ "") (h2 : ¬ (splitChar '\n' (jsTrim csv)).length < 2)
    (h3 : missingColumns required csv ≠ []) :
    importWith required cl keep csv = .missingFields (missingColumns required csv) := by
  simp [importWith, parseCsv, h1, h2, h3]

/-- A structurally well-formed input whose rows never throw completes with
the per-row tallies as final counters and records. -/
theorem importWith_completes {R : Type} (required : List String)
    (cl : List String → String → RowClass R) (keep : Bool) (csv : String)
    (header dataLines : List String)
    (hok : parseCsv required csv = .okHeader header dataLines)
    (hth : ∀ l ∈ dataLines, cl header l ≠ RowClass.throws) :
    importWith required cl keep csv = .completed
      ⟨countValid (cl header) dataLines, countInvalid (cl header) dataLines,
        validRecords (cl header) dataLines⟩ := by
  simp only [importWith, hok]
  rw [runLines_eq (cl header) dataLines ⟨0, 0, []⟩ hth]
  simp [finishRun]

/-- Every record a run hands to the store was produced by a data line its
classifier declared valid. -/
theorem importWith_committed_valid {R : Type} (required : List String)
    (cl : List String → String → RowClass R) (keep : Bool) (csv : String)
    (r : R) (h : r ∈ (importWith required cl keep csv).committed) :
    ∃ header dataLines, parseCsv required csv = .okHeader header dataLines ∧
      ∃ l ∈ dataLines, cl header l = RowClass.valid r := by
  cases hp : parseCsv required csv with
  | emptyInput => simp [importWith, hp, ImportOutcome.committed] at h
  | tooFewLines => simp [importWith, hp, ImportOutcome.committed] at h
  | missing ms => simp [importWith, hp, ImportOutcome.committed] at h
  | okHeader header dataLines =>
    simp only [importWith, hp] at h
    refine ⟨header, dataLines, rfl, ?_⟩
    cases hr : runLines (cl header) ⟨0, 0, []⟩ dataLines with
    | ok st =>
      rw [hr] at h
      simp [finishRun, ImportOutcome.committed] at h
      have := runLines_mem (cl header) dataLines ⟨0, 0, []⟩ r (by rw [hr]; exact h)
      simpa using this
    | error recs =>
      rw [hr] at h
      simp [finishRun, ImportOutcome.committed] at h
      cases keep with
      | false => simp at h
      | true =>
        simp at h
        have := runLines_mem (cl header) dataLines ⟨0, 0, []⟩ r (by rw [hr]; exact h)
        simpa using this

/-! ### Structural lemmas about the per-row withdrawal classifier -/

/-- Whether a date cell fails to produce a valid parsed date (missing cell or
failed parse). -/
def dateUnparsed (d : DateOracle) (c : Option String) : Bool :=
  match c with
  | some s => !(d.ok s)
  | none => true

/-- The cells of one data line, split on commas and trimmed. -/
def cellsOf (l : String) : List String := (splitChar ',' l).map jsTrim

/-- The per-row withdrawal classifier skips exactly the blank lines. -/
theorem wClassify_skip_iff (clients : List Client) (d : DateOracle) (ix : WIdx)
    (l : String) : wClassify clients d ix l = .skip ↔ jsTrim l = "" := by
  simp only [wClassify]
  split
  · simp_all
  · constructor
    · intro h
      repeat' split at h
      all_goals simp_all
    · intro h; simp_all

/-- Every record the per-row withdrawal classifier produces has a strictly
positive amount. -/
theorem wClassify_valid_amount (clients : List Client) (d : DateOracle)
    (ix : WIdx) (l : String) (r : WRecord)
    (h : wClassify clients d ix l = .valid r) : 0 < r.amount := by
  simp only [wClassify] at h
  repeat' split at h
  all_goals simp_all
  all_goals (subst h; simp_all)

/-- A NaN or negative amount cell makes the per-row withdrawal classifier
reject the row. -/
theorem wClassify_badAmount (clients : List Client) (d : DateOracle)
    (ix : WIdx) (l : String) (hb : jsTrim l ≠ "")
    (hbad : jsParseFloatCell (cellAt (cellsOf l) ix.amount) = none ∨
      ∃ q, jsParseFloatCell (cellAt (cellsOf l) ix.amount) = some q ∧ q < 0) :
    wClassify clients d ix l = .invalid := by
  simp only [wClassify, cellsOf] at hbad ⊢
  rcases hbad with hbad | ⟨q, hq, hneg⟩
  all_goals repeat' split
  all_goals simp_all
  all_goals linarith

/-- Whether the row is valid, invalid or thrown never depends on the date
oracle in the per-row withdrawal flow: an unparseable date is no reason to
reject a row. -/
theorem wClassify_status_oracle (clients : List Client) (d d2 : DateOracle)
    (ix : WIdx) (l : String) :
    statusOf (wClassify clients d ix l) = statusOf (wClassify clients d2 ix l) := by
  simp only [wClassify]
  repeat' split
  all_goals simp_all [statusOf]

/-- When the date cell is missing or unparseable, the per-row withdrawal
classifier stores the current date on the record it produces. -/
theorem wClassify_badDate_today (clients : List Client) (d : DateOracle)
    (ix : WIdx) (l : String) (r : WRecord)
    (hd : dateUnparsed d (cellAt (cellsOf l) ix.date) = true)
    (h : wClassify clients d ix l = .valid r) : r.date = d.today := by
  simp only [wClassify, cellsOf] at h
  cases hc : cellAt ((splitChar ',' l).map jsTrim) ix.date with
  | none =>
    rw [hc] at h
    repeat' split at h
    all_goals simp_all
    all_goals (subst h; simp_all)
  | some sdt =>
    have hok : d.ok sdt = false := by
      simpa [dateUnparsed, cellsOf, hc] using hd
    rw [hc] at h
    simp only [hok] at h
    repeat' split at h
    all_goals simp_all
    all_goals (subst h; simp_all)

/-- A shop id that resolves to no client never rejects a row in the per-row
withdrawal flow: the produced record carries the placeholder client name and
agent. -/
theorem wClassify_unknownShop (clients : List Client) (d : DateOracle)
    (ix : WIdx) (l : String) (r : WRecord)
    (hfind : ∀ s, cellAt (cellsOf l) ix.shopId = some s →
      clients.find? (fun c => c.shopId == s) = none)
    (h : wClassify clients d ix l = .valid r) :
    r.clientName = "Unknown Client" ∧ r.agent = "Unknown Agent" := by
  simp only [wClassify, cellsOf] at h
  cases hc : cellAt ((splitChar ',' l).map jsTrim) ix.shopId with
  | none =>
    rw [hc] at h
    repeat' split at h
    all_goals simp_all
    all_goals (subst h; simp_all)
  | some s =>
    have hf := hfind s (by simpa [cellsOf] using hc)
    rw [hc] at h
    simp only [hf] at h
    repeat' split at h
    all_goals simp_all
    all_goals (subst h; simp_all)

/-! ### Structural lemmas about the batched withdrawal classifier -/

/-- The batched withdrawal classifier skips exactly the blank lines. -/
theorem wbClassify_skip_iff (clients : List Client) (d : DateOracle) (ix : WIdx)
    (l : String) : wbClassify clients d ix l = .skip ↔ jsTrim l = "" := by
  simp only [wbClassify]
  split
  · simp_all
  · constructor
    · intro h
      repeat' split at h
      all_goals simp_all
    · intro h; simp_all

/-- Every record the batched withdrawal classifier accumulates has a strictly
positive amount. -/
theorem wbClassify_valid_amount (clients : List Client) (d : DateOracle)
    (ix : WIdx) (l : String) (r : BWRecord)
    (h : wbClassify clients d ix l = .valid r) : 0 < r.amount := by
  simp only [wbClassify] at h
  repeat' split at h
  all_goals simp_all
  all_goals (subst h; simp_all)

/-- A NaN or negative amount cell makes the batched withdrawal classifier
reject the row. -/
theorem wbClassify_badAmount (clients : List Client) (d : DateOracle)
    (ix : WIdx) (l : String) (hb : jsTrim l ≠ "")
    (hbad : jsParseFloatCell (cellAt (cellsOf l) ix.amount) = none ∨
      ∃ q, jsParseFloatCell (cellAt (cellsOf l) ix.amount) = some q ∧ q < 0) :
    wbClassify clients d ix l = .invalid := by
  simp only [wbClassify, cellsOf] at hbad ⊢
  rcases hbad with hbad | ⟨q, hq, hneg⟩
  all_goals repeat' split
  all_goals simp_all
  all_goals linarith

/-- The row status of the batched withdrawal flow never depends on the date
oracle. -/
theorem wbClassify_status_oracle (clients : List Client) (d d2 : DateOracle)
    (ix : WIdx) (l : String) :
    statusOf (wbClassify clients d ix l) = statusOf (wbClassify clients d2 ix l) := by
  simp only [wbClassify]
  repeat' split
  all_goals simp_all [statusOf]

/-- When the date cell is missing or unparseable, the batched withdrawal
record stores none, modelling substitution of the current instant. -/
theorem wbClassify_badDate_now (clients : List Client) (d : DateOracle)
    (ix : WIdx) (l : String) (r : BWRecord)
    (hd : dateUnparsed d (cellAt (cellsOf l) ix.date) = true)
    (h : wbClassify clients d ix l = .valid r) : r.date = none := by
  simp only [wbClassify, cellsOf] at h
  cases hc : cellAt ((splitChar ',' l).map jsTrim) ix.date with
  | none =>
    rw [hc] at h
    repeat' split at h
    all_goals simp_all
    all_goals (subst h; simp_all)
  | some sdt =>
    have hok : d.ok sdt = false := by
      simpa [dateUnparsed, cellsOf, hc] using hd
    rw [hc] at h
    simp only [hok] at h
    repeat' split at h
    all_goals simp_all
    all_goals (subst h; simp_all)

/-- An unresolvable shop id never rejects a row in the batched withdrawal
flow: the accumulated record carries the placeholder client fields. -/
theorem wbClassify_unknownShop (clients : List Client) (d : DateOracle)
    (ix : WIdx) (l : String) (r : BWRecord)
    (hfind : ∀ s, cellAt (cellsOf l) ix.shopId = some s →
      clients.find? (fun c => c.shopId == s) = none)
    (h : wbClassify clients d ix l = .valid r) :
    r.clientName = "Unknown Client" ∧ r.agent = "Unknown Agent" := by
  simp only [wbClassify, cellsOf] at h
  cases hc : cellAt ((splitChar ',' l).map jsTrim) ix.shopId with
  | none =>
    rw [hc] at h
    repeat' split at h
    all_goals simp_all
    all_goals (subst h; simp_all)
  | some s =>
    have hf := hfind s (by simpa [cellsOf] using hc)
    rw [hc] at h
    simp only [hf] at h
    repeat' split at h
    all_goals simp_all
    all_goals (subst h; simp_all)

/-- A non-blank row splitting into fewer than 4 cells is rejected by the
batched withdrawal classifier before any cell is read by column index. -/
theorem wbClassify_short_invalid (clients : List Client) (d : DateOracle)
    (ix : WIdx) (l : String) (hb : jsTrim l ≠ "")
    (hlen : (cellsOf l).length < 4) : wbClassify clients d ix l = .invalid := by
  have hlen2 : (splitChar ',' l).length < 4 := by simpa [cellsOf] using hlen
  simp only [wbClassify, cellsOf]
  simp [hb, hlen2]

/-! ### Structural lemmas about the deposit classifier -/

/-- The deposit classifier skips exactly the blank lines. -/
theorem dClassify_skip_iff (clients : List Client) (m : DateOracle) (ix : WIdx)
    (l : String) : dClassify clients m ix l = .skip ↔ jsTrim l = "" := by
  simp only [dClassify]
  split
  · simp_all
  · constructor
    · intro h
      repeat' split at h
      all_goals simp_all
    · intro h; simp_all

/-- The deposit classifier never throws: every non-blank row is either valid
or rejected. -/
theorem dClassify_noThrow (clients : List Client) (m : DateOracle) (ix : WIdx)
    (l : String) : dClassify clients m ix l ≠ .throws := by
  simp only [dClassify]
  intro h
  repeat' split at h
  all_goals simp_all

/-- Every record the deposit classifier produces has a strictly positive
amount. -/
theorem dClassify_valid_amount (clients : List Client) (m : DateOracle)
    (ix : WIdx) (l : String) (r : DRecord)
    (h : dClassify clients m ix l = .valid r) : 0 < r.amount := by
  simp only [dClassify] at h
  repeat' split at h
  all_goals simp_all
  all_goals (subst h; simp_all)

/-- A NaN or negative amount cell makes the deposit classifier reject the
row. -/
theorem dClassify_badAmount (clients : List Client) (m : DateOracle)
    (ix : WIdx) (l : String) (hb : jsTrim l ≠ "")
    (hbad : jsParseFloatCell (cellAt (cellsOf l) ix.amount) = none ∨
      ∃ q, jsParseFloatCell (cellAt (cellsOf l) ix.amount) = some q ∧ q < 0) :
    dClassify clients m ix l = .invalid := by
  simp only [dClassify, cellsOf] at hbad ⊢
  rcases hbad with hbad | ⟨q, hq, hneg⟩
  all_goals repeat' split
  all_goals simp_all
  all_goals linarith

/-- The row status of the deposit flow never depends on the date oracle. -/
theorem dClassify_status_oracle (clients : List Client) (m m2 : DateOracle)
    (ix : WIdx) (l : String) :
    statusOf (dClassify clients m ix l) = statusOf (dClassify clients m2 ix l) := by
  simp only [dClassify]
  repeat' split
  all_goals simp_all [statusOf]

/-- When the date cell is missing or unparseable, the deposit record stores
the formatted current date. -/
theorem dClassify_badDate_today (clients : List Client) (m : DateOracle)
    (ix : WIdx) (l : String) (r : DRecord)
    (hd : dateUnparsed m (cellAt (cellsOf l) ix.date) = true)
    (h : dClassify clients m ix l = .valid r) : r.date = m.today := by
  simp only [dClassify, cellsOf] at h
  cases hc : cellAt ((splitChar ',' l).map jsTrim) ix.date with
  | none =>
    rw [hc] at h
    repeat' split at h
    all_goals simp_all
    all_goals (subst h; simp_all)
  | some sdt =>
    have hok : m.ok sdt = false := by
      simpa [dateUnparsed, cellsOf, hc] using hd
    rw [hc] at h
    simp only [hok] at h
    repeat' split at h
    all_goals simp_all
    all_goals (subst h; simp_all)

/-- A shop id that resolves to no client makes the deposit classifier reject
the row. -/
theorem dClassify_unknownShop (clients : List Client) (m : DateOracle)
    (ix : WIdx) (l : String) (hb : jsTrim l ≠ "")
    (hfind : ∀ s, cellAt (cellsOf l) ix.shopId = some s →
      clients.find? (fun c => c.shopId == s) = none) :
    dClassify clients m ix l = .invalid := by
  simp only [dClassify, cellsOf]
  cases hc : cellAt ((splitChar ',' l).map jsTrim) ix.shopId with
  | none => simp [hb, hc]
  | some s =>
    have hf := hfind s (by simpa [cellsOf] using hc)
    simp [hb, hc, hf]

/-- A payment-mode cell that is not exactly one of the canonical labels makes
the deposit classifier reject the row: the deposit flow consults no synonym
table. -/
theorem dClassify_paymentExact (clients : List Client) (m : DateOracle)
    (ix : WIdx) (l : String) (hb : jsTrim l ≠ "")
    (hpm : ∀ p, cellAt (cellsOf l) ix.paymentMode = some p →
      canonicalModes.contains p = false) :
    dClassify clients m ix l = .invalid := by
  simp only [dClassify, cellsOf]
  cases hc : cellAt ((splitChar ',' l).map jsTrim) ix.paymentMode with
  | none =>
    repeat' split
    all_goals simp_all
  | some p =>
    have hf := hpm p (by simpa [cellsOf] using hc)
    simp only [hf]
    repeat' split
    all_goals simp_all

/-! ### Structural lemmas about the order classifier -/

/-- The order classifier skips exactly the blank lines. -/
theorem oClassify_skip_iff (clients : List Client) (ix : OIdx) (l : String) :
    oClassify clients ix l = .skip ↔ jsTrim l = "" := by
  simp only [oClassify]
  split
  · simp_all
  · constructor
    · intro h
      repeat' split at h
      all_goals simp_all
    · intro h; simp_all

/-- The order classifier never throws. -/
theorem oClassify_noThrow (clients : List Client) (ix : OIdx) (l : String) :
    oClassify clients ix l ≠ .throws := by
  simp only [oClassify]
  intro h
  repeat' split at h
  all_goals simp_all

/-- Every record the order classifier produces has a strictly positive
price. -/
theorem oClassify_valid_price (clients : List Client) (ix : OIdx) (l : String)
    (r : ORecord) (h : oClassify clients ix l = .valid r) : 0 < r.price := by
  simp only [oClassify] at h
  repeat' split at h
  all_goals simp_all
  all_goals (subst h; simp_all)

/-- A NaN or negative price cell makes the order classifier reject the row. -/
theorem oClassify_badPrice (clients : List Client) (ix : OIdx) (l : String)
    (hb : jsTrim l ≠ "")
    (hbad : jsParseFloatCell (cellAt (cellsOf l) ix.price) = none ∨
      ∃ q, jsParseFloatCell (cellAt (cellsOf l) ix.price) = some q ∧ q < 0) :
    oClassify clients ix l = .invalid := by
  simp only [oClassify, cellsOf] at hbad ⊢
  rcases hbad with hbad | ⟨q, hq, hneg⟩
  all_goals repeat' split
  all_goals simp_all
  all_goals linarith

/-- A shop id that resolves to no client makes the order classifier reject
the row. -/
theorem oClassify_unknownShop (clients : List Client) (ix : OIdx) (l : String)
    (hb : jsTrim l ≠ "")
    (hfind : ∀ s, cellAt (cellsOf l) ix.shopId = some s →
      clients.find? (fun c => c.shopId == s) = none) :
    oClassify clients ix l = .invalid := by
  simp only [oClassify, cellsOf]
  cases hc : cellAt ((splitChar ',' l).map jsTrim) ix.shopId with
  | none => simp [hb, hc]
  | some s =>
    have hf := hfind s (by simpa [cellsOf] using hc)
    simp [hb, hf]

/-- The order flow stores the raw date cell on the record (null when the cell
is empty or missing): no current-date substitution happens, and the parse of
the cell is discarded. -/
theorem oClassify_valid_date_raw (clients : List Client) (ix : OIdx)
    (l : String) (r : ORecord) (h : oClassify clients ix l = .valid r) :
    r.date = (match cellAt (cellsOf l) ix.date with
      | none => none
      | some s => if s = "" then none else some s) := by
  simp only [oClassify, cellsOf] at h ⊢
  repeat' split at h
  all_goals simp_all
  all_goals (subst h; simp_all)

/-! ### Structural lemmas about the agent classifier -/

/-- The agent classifier skips exactly the blank lines. -/
theorem aClassify_skip_iff (ix : AIdx) (l : String) :
    aClassify ix l = .skip ↔ jsTrim l = "" := by
  simp only [aClassify]
  split
  · simp_all
  · constructor
    · intro h
      repeat' split at h
      all_goals simp_all
    · intro h; simp_all

/-- The agent classifier never throws. -/
theorem aClassify_noThrow (ix : AIdx) (l : String) :
    aClassify ix l ≠ .throws := by
  simp only [aClassify]
  intro h
  repeat' split at h
  all_goals simp_all

/-- Every record the agent classifier produces has non-negative numeric
fields. -/
theorem aClassify_valid_nonneg (ix : AIdx) (l : String) (r : ARecord)
    (h : aClassify ix l = .valid r) :
    0 ≤ r.addedToday ∧ 0 ≤ r.monthlyAdded ∧ 0 ≤ r.totalDeposits := by
  simp only [aClassify] at h
  repeat' split at h
  all_goals simp_all
  all_goals (subst h; simp_all)

/-- A NaN or negative total-deposits cell makes the agent classifier reject
the row. -/
theorem aClassify_badDeposits (ix : AIdx) (l : String) (hb : jsTrim l ≠ "")
    (hbad : jsParseFloatCell (cellAt (cellsOf l) ix.totalDeposits) = none ∨
      ∃ q, jsParseFloatCell (cellAt (cellsOf l) ix.totalDeposits) = some q ∧ q < 0) :
    aClassify ix l = .invalid := by
  simp only [aClassify, cellsOf] at hbad ⊢
  rcases hbad with hbad | ⟨q, hq, hneg⟩
  all_goals repeat' split
  all_goals simp_all

/-! ### Further helper lemmas -/

/-- One record is produced per valid row. -/
theorem validRecords_length {R : Type} (c : String → RowClass R)
    (ls : List String) : (validRecords c ls).length = countValid c ls := by
  induction ls with
  | nil => simp [validRecords, countValid]
  | cons l ls ih =>
    cases hc : c l with
    | skip => simpa [validRecords, countValid, hc, isValidClass] using ih
    | invalid => simpa [validRecords, countValid, hc, isValidClass] using ih
    | valid r => simpa [validRecords, countValid, hc, isValidClass] using ih
    | throws => simpa [validRecords, countValid, hc, isValidClass] using ih

/-- Normalization of the withdrawal payment modes is idempotent: every label
it produces is mapped to itself. -/
theorem wNormalize_idem (p c : String) (h : wNormalizePaymentMode p = some c) :
    wNormalizePaymentMode c = some c := by
  simp only [wNormalizePaymentMode] at h
  split at h
  · rename_i hc
    injection h with h2
    subst h2
    have hc2 : p ∈ canonicalModes := by simpa using hc
    simp [wNormalizePaymentMode, hc2]
  · split at h
    · injection h with h2; subst h2; decide
    · split at h
      · injection h with h2; subst h2; decide
      · split at h
        · injection h with h2; subst h2; decide
        · simp at h

/-- Every label the withdrawal normalization produces is canonical. -/
theorem wNormalize_canonical (p c : String) (h : wNormalizePaymentMode p = some c) :
    canonicalModes.contains c = true := by
  simp only [wNormalizePaymentMode] at h
  split at h
  · rename_i hc
    injection h with h2
    subst h2
    exact hc
  · split at h
    · injection h with h2; subst h2; decide
    · split at h
      · injection h with h2; subst h2; decide
      · split at h
        · injection h with h2; subst h2; decide
        · simp at h

/-- The payment mode of every record the per-row withdrawal classifier
produces came out of the normalization, hence is canonical. -/
theorem wClassify_valid_mode (clients : List Client) (d : DateOracle)
    (ix : WIdx) (l : String) (r : WRecord)
    (h : wClassify clients d ix l = .valid r) :
    wNormalizePaymentMode r.paymentMode = some r.paymentMode := by
  have hmode : ∃ p, wNormalizePaymentMode p = some r.paymentMode := by
    simp only [wClassify] at h
    repeat' split at h
    all_goals simp_all
    all_goals (subst h; simp_all)
    all_goals exact ⟨_, by assumption⟩
  rcases hmode with ⟨p, hp⟩
  exact wNormalize_idem p r.paymentMode hp

/-- An upper bound of the list and the seed bounds the max fold. -/
theorem foldl_max_le (l : List Int) (n a : Int) (hub : ∀ x ∈ l, x ≤ n)
    (ha : a ≤ n) : l.foldl max a ≤ n := by
  induction l generalizing a with
  | nil => simpa using ha
  | cons x xs ih =>
    simp only [List.foldl]
    exact ih (max a x) (fun y hy => hub y (by simp [hy]))
      (max_le ha (hub x (by simp)))

/-- The max fold dominates its seed. -/
theorem foldl_max_le_seed (l : List Int) (a : Int) : a ≤ l.foldl max a := by
  induction l generalizing a with
  | nil => simp
  | cons x xs ih =>
    simp only [List.foldl]
    exact le_trans (le_max_left a x) (ih (max a x))

/-- The max fold dominates every member of the list. -/
theorem le_foldl_max (l : List Int) (a x : Int) (hx : x ∈ l) :
    x ≤ l.foldl max a := by
  induction l generalizing a with
  | nil => simp at hx
  | cons y ys ih =>
    simp only [List.foldl]
    rcases List.mem_cons.mp hx with h | h
    · subst h
      exact le_trans (le_max_right a x) (foldl_max_le_seed ys (max a x))
    · exact ih (max a y) h

/-- The max fold from seed zero equals a non-negative member that bounds the
whole list. -/
theorem foldl_max_eq (l : List Int) (n : Int) (hmem : n ∈ l)
    (hub : ∀ x ∈ l, x ≤ n) (h0 : 0 ≤ n) : l.foldl max 0 = n :=
  le_antisymm (foldl_max_le l n 0 hub h0) (le_foldl_max l 0 n hmem)

/-! ### Lemmas about the write-batch chunking -/

/-- Unfolding equation of the batch loop on a non-empty record list. -/
theorem chunks_eq_cons {R : Type} (l : List R) (h : l ≠ []) :
    chunks l = l.take BATCH_SIZE :: chunks (l.drop BATCH_SIZE) := by
  cases l with
  | nil => simp at h
  | cons x xs => rw [chunks]

/-- No submitted batch exceeds the configured chunk size. -/
theorem chunks_length_le {R : Type} (l : List R) (c : List R)
    (hc : c ∈ chunks l) : c.length ≤ BATCH_SIZE := by
  induction l using chunks.induct with
  | case1 => simp [chunks] at hc
  | case2 x xs ih =>
    rw [chunks] at hc
    rcases List.mem_cons.mp hc with h | h
    · subst h
      simp
    · exact ih h

/-- The batches are consecutive chunks: concatenated they restore the
accumulated record list in order. -/
theorem chunks_flatten {R : Type} (l : List R) : (chunks l).flatten = l := by
  induction l using chunks.induct with
  | case1 => simp [chunks]
  | case2 x xs ih =>
    rw [chunks]
    simp [ih]

/-- A run of exactly 1000 valid records is submitted as exactly three batches
of sizes 450, 450 and 100, in that order. -/
theorem chunks_1000 {R : Type} (l : List R) (h : l.length = 1000) :
    (chunks l).map List.length = [450, 450, 100] := by
  have hB : BATCH_SIZE = 450 := rfl
  have e1 := chunks_eq_cons l (by intro e; rw [e] at h; simp at h)
  have len1 : (l.drop BATCH_SIZE).length = 550 := by simp [h, hB]
  have e2 := chunks_eq_cons (l.drop BATCH_SIZE)
    (by intro e; rw [e] at len1; simp at len1)
  have len2 : ((l.drop BATCH_SIZE).drop BATCH_SIZE).length = 100 := by
    simp [h, hB]
  have e3 := chunks_eq_cons ((l.drop BATCH_SIZE).drop BATCH_SIZE)
    (by intro e; rw [e] at len2; simp at len2)
  have len3 : (((l.drop BATCH_SIZE).drop BATCH_SIZE).drop BATCH_SIZE).length = 0 := by
    simp [h, hB]
  have e4 : (((l.drop BATCH_SIZE).drop BATCH_SIZE).drop BATCH_SIZE) = [] :=
    List.eq_nil_of_length_eq_zero len3
  rw [e1, e2, e3, e4, chunks]
  simp [List.length_take, h, len1, len2, hB]

/-! ### Concrete instances used by witnesses and counterexamples -/

/-- A representative date oracle: the host parses exactly the ISO date used
in the examples and renders it unchanged; today is fixed. -/
def dateOracleA : DateOracle := ⟨fun s => s == "2023-01-01", fun s => s, "2026-10-12"⟩

/-- A representative date oracle for the MM/dd/yyyy deposit parser. -/
def dateOracleB : DateOracle :=
  ⟨fun s => s == "01/01/2023", fun _ => "2023-01-01", "2026-10-12"⟩

/-- A sample batched-withdrawal record. -/
def bwSample : BWRecord := ⟨none, "Unknown Client", "Unknown Agent", none, 1, "Crypto"⟩

/-! ### The claims -/

/-- C2: if the trimmed CSV input has fewer than two lines, or the header row
lacks a required column name, every bulk import flow (both withdrawal
variants, deposits, orders, agents) aborts before processing any data row
with a single error message naming the problem — listing the missing column
names when that is the cause — and zero records are committed. -/
theorem C2_structural_abort (clients : List Client) (d m : DateOracle)
    (csv : String) :
    (jsTrim csv = "" →
      wHandleImport clients d csv = .emptyInput ∧
      wbHandleImport clients d csv = .emptyInput ∧
      dHandleImport clients m csv = .emptyInput ∧
      oHandleImport clients csv = .emptyInput ∧
      aHandleImport csv = .emptyInput) ∧
    (jsTrim csv ≠ "" → (splitChar '\n' (jsTrim csv)).length < 2 →
      wHandleImport clients d csv = .tooFewLines ∧
      wbHandleImport clients d csv = .tooFewLines ∧
      dHandleImport clients m csv = .tooFewLines ∧
      oHandleImport clients csv = .tooFewLines ∧
      aHandleImport csv = .tooFewLines) ∧
    (jsTrim csv ≠ "" → ¬ (splitChar '\n' (jsTrim csv)).length < 2 →
      (missingColumns wRequired csv ≠ [] →
        wHandleImport clients d csv = .missingFields (missingColumns wRequired csv) ∧
        wbHandleImport clients d csv = .missingFields (missingColumns wRequired csv) ∧
        dHandleImport clients m csv = .missingFields (missingColumns wRequired csv)) ∧
      (missingColumns oRequired csv ≠ [] →
        oHandleImport clients csv = .missingFields (missingColumns oRequired csv)) ∧
      (missingColumns aRequired csv ≠ [] →
        aHandleImport csv = .missingFields (missingColumns aRequired csv))) ∧
    (∀ (R : Type) (ms : List String),
      (ImportOutcome.missingFields ms : ImportOutcome R).errorMessage =
        some ("CSV is missing required fields: " ++ joinSep ", " ms) ∧
      (ImportOutcome.missingFields ms : ImportOutcome R).committed = [] ∧
      (ImportOutcome.tooFewLines : ImportOutcome R).errorMessage =
        some "CSV must contain at least a header row and one data row" ∧
      (ImportOutcome.tooFewLines : ImportOutcome R).committed = [] ∧
      (ImportOutcome.emptyInput : ImportOutcome R).errorMessage =
        some "Please enter or upload CSV data" ∧
      (ImportOutcome.emptyInput : ImportOutcome R).committed = []) := by
  refine ⟨fun h => ⟨?_, ?_, ?_, ?_, ?_⟩, fun h1 h2 => ⟨?_, ?_, ?_, ?_, ?_⟩,
    fun h1 h2 => ⟨fun h3 => ⟨?_, ?_, ?_⟩, fun h3 => ?_, fun h3 => ?_⟩,
    fun R ms => ⟨rfl, rfl, rfl, rfl, rfl, rfl⟩⟩
  · exact importWith_empty _ _ _ _ h
  · exact importWith_empty _ _ _ _ h
  · exact importWith_empty _ _ _ _ h
  · exact importWith_empty _ _ _ _ h
  · exact importWith_empty _ _ _ _ h
  · exact importWith_short _ _ _ _ h1 h2
  · exact importWith_short _ _ _ _ h1 h2
  · exact importWith_short _ _ _ _ h1 h2
  · exact importWith_short _ _ _ _ h1 h2
  · exact importWith_short _ _ _ _ h1 h2
  · exact importWith_missing _ _ _ _ h1 h2 h3
  · exact importWith_missing _ _ _ _ h1 h2 h3
  · exact importWith_missing _ _ _ _ h1 h2 h3
  · exact importWith_missing _ _ _ _ h1 h2 h3
  · exact importWith_missing _ _ _ _ h1 h2 h3

/-- Witness for C2: a header that lacks the amount and payment-mode columns
makes the withdrawal import abort, reporting exactly those two names. -/
theorem C2_structural_abort_witness :
    wHandleImport [] dateOracleA "shop id,date\nS1,2023-01-01" =
      .missingFields ["amount", "payment mode"] := by
  have h := (((C2_structural_abort [] dateOracleA dateOracleA
    "shop id,date\nS1,2023-01-01").2.2.1 (by decide) (by decide)).1 (by decide)).1
  rw [h]
  decide

/-- C3: the batch committer never submits more than 450 records in one
batched write; the batches are consecutive chunks of the accumulated list;
and a run of exactly 1000 valid records is submitted as exactly 3 chunks of
sizes 450, 450, 100, in that order. -/
theorem C3_batch_chunking :
    (∀ (l : List BWRecord), ∀ c ∈ chunks l, c.length ≤ 450) ∧
    (∀ (l : List BWRecord), (chunks l).flatten = l) ∧
    (∀ (l : List BWRecord), l.length = 1000 →
      (chunks l).map List.length = [450, 450, 100]) ∧
    (∀ (o : ImportOutcome BWRecord), ∀ c ∈ wbCommittedChunks o, c.length ≤ 450) ∧
    BATCH_SIZE = 450 :=
  ⟨fun l c hc => chunks_length_le l c hc,
   fun l => chunks_flatten l,
   fun l h => chunks_1000 l h,
   fun _ c hc => chunks_length_le _ c hc,
   rfl⟩

/-- Witness for C3: 1000 accumulated records are committed as batches of
sizes 450, 450 and 100. -/
theorem C3_batch_chunking_witness :
    (chunks (List.replicate 1000 bwSample)).map List.length = [450, 450, 100] :=
  C3_batch_chunking.2.2.1 (List.replicate 1000 bwSample)
    (List.length_replicate 1000 bwSample)

/-- Counterexample to C1 as stated: a structurally well-formed CSV (all four
required columns present, one non-blank data row) on which the batched
withdrawal import does not end with success and error counters at all — the
row has four cells but the payment-mode column sits at header index 4, so
reading it yields undefined, the exact-match test fails, and the synonym
normalization throws, aborting the whole run with no counters surfaced and
nothing committed. -/
theorem C1_counterexample :
    parseCsv wRequired "shop id,date,amount,x,payment mode\nS1,2023-01-01,5,q" =
      .okHeader ["shop id", "date", "amount", "x", "payment mode"]
        ["S1,2023-01-01,5,q"] ∧
    wbHandleImport [] dateOracleA
      "shop id,date,amount,x,payment mode\nS1,2023-01-01,5,q" = .aborted [] := by
  constructor
  · decide
  · decide

/-- C1 amended: for every structurally well-formed CSV input, the order and
deposit imports end with a success counter equal to the number V of rows
passing row validation, an error counter equal to the number of rows failing
it (together the non-blank data rows), and exactly V records handed to the
store in one call per valid row; the batched withdrawal import satisfies the
same provided no data row aborts the run by referencing a payment-mode cell
beyond its cell count. -/
theorem C1_import_tallies (clients : List Client) (d m : DateOracle)
    (csv : String) (header dataLines : List String) :
    (parseCsv oRequired csv = .okHeader header dataLines →
      oHandleImport clients csv = .completed
        ⟨countValid (oClassify clients (oIdxOf header)) dataLines,
         countInvalid (oClassify clients (oIdxOf header)) dataLines,
         validRecords (oClassify clients (oIdxOf header)) dataLines⟩ ∧
      countValid (oClassify clients (oIdxOf header)) dataLines +
        countInvalid (oClassify clients (oIdxOf header)) dataLines =
          nonblankCount dataLines ∧
      (validRecords (oClassify clients (oIdxOf header)) dataLines).length =
        countValid (oClassify clients (oIdxOf header)) dataLines) ∧
    (parseCsv wRequired csv = .okHeader header dataLines →
      dHandleImport clients m csv = .completed
        ⟨countValid (dClassify clients m (wIdxOf header)) dataLines,
         countInvalid (dClassify clients m (wIdxOf header)) dataLines,
         validRecords (dClassify clients m (wIdxOf header)) dataLines⟩ ∧
      countValid (dClassify clients m (wIdxOf header)) dataLines +
        countInvalid (dClassify clients m (wIdxOf header)) dataLines =
          nonblankCount dataLines ∧
      (validRecords (dClassify clients m (wIdxOf header)) dataLines).length =
        countValid (dClassify clients m (wIdxOf header)) dataLines) ∧
    (parseCsv wRequired csv = .okHeader header dataLines →
      (∀ l ∈ dataLines, wbClassify clients d (wIdxOf header) l ≠ RowClass.throws) →
      wbHandleImport clients d csv = .completed
        ⟨countValid (wbClassify clients d (wIdxOf header)) dataLines,
         countInvalid (wbClassify clients d (wIdxOf header)) dataLines,
         validRecords (wbClassify clients d (wIdxOf header)) dataLines⟩ ∧
      countValid (wbClassify clients d (wIdxOf header)) dataLines +
        countInvalid (wbClassify clients d (wIdxOf header)) dataLines =
          nonblankCount dataLines ∧
      (validRecords (wbClassify clients d (wIdxOf header)) dataLines).length =
        countValid (wbClassify clients d (wIdxOf header)) dataLines) := by
  refine ⟨fun hok => ⟨?_, ?_, ?_⟩, fun hok => ⟨?_, ?_, ?_⟩,
    fun hok hth => ⟨?_, ?_, ?_⟩⟩
  · exact importWith_completes _ _ _ _ _ _ hok
      (fun l _ => oClassify_noThrow clients (oIdxOf header) l)
  · exact counts_partition _ _
      (fun l _ => oClassify_skip_iff clients (oIdxOf header) l)
      (fun l _ => oClassify_noThrow clients (oIdxOf header) l)
  · exact validRecords_length _ _
  · exact importWith_completes _ _ _ _ _ _ hok
      (fun l _ => dClassify_noThrow clients m (wIdxOf header) l)
  · exact counts_partition _ _
      (fun l _ => dClassify_skip_iff clients m (wIdxOf header) l)
      (fun l _ => dClassify_noThrow clients m (wIdxOf header) l)
  · exact validRecords_length _ _
  · exact importWith_completes _ _ _ _ _ _ hok hth
  · exact counts_partition _ _
      (fun l _ => wbClassify_skip_iff clients d (wIdxOf header) l) hth
  · exact validRecords_length _ _

/-- Witness for C1: a four-line batched withdrawal input (one blank line, two
valid rows, one negative-amount row) completes with counters 2 and 1 and
exactly the two valid records accumulated in order. -/
theorem C1_import_tallies_witness :
    wbHandleImport [⟨"S1", "Alice", "Bob"⟩] dateOracleA
      "shop id,date,amount,payment mode\nS1,2023-01-01,100,Crypto\n\nS2,2023-01-01,50,Ewallet\nS1,2023-01-01,-1,Crypto" =
    .completed ⟨2, 1,
      [⟨some "S1", "Alice", "Bob", some "2023-01-01", 100, "Crypto"⟩,
       ⟨some "S2", "Unknown Client", "Unknown Agent", some "2023-01-01", 50,
        "Ewallet"⟩]⟩ := by
  have h := ((C1_import_tallies [⟨"S1", "Alice", "Bob"⟩] dateOracleA dateOracleA
    "shop id,date,amount,payment mode\nS1,2023-01-01,100,Crypto\n\nS2,2023-01-01,50,Ewallet\nS1,2023-01-01,-1,Crypto"
    ["shop id", "date", "amount", "payment mode"]
    ["S1,2023-01-01,100,Crypto", "", "S2,2023-01-01,50,Ewallet",
     "S1,2023-01-01,-1,Crypto"]).2.2 (by decide) (by decide)).1
  rw [h]
  decide

/-- Counterexample to C4 as stated: the generators inspect the LAST stored
identifier, not the highest one.  With stored orders OR00005, OR00002 (in
that order) the code yields OR00003 — which collides with nothing the spec
predicts — while the highest-suffix rule of the spec yields OR00006. -/
theorem C4_counterexample :
    generateOrderId [⟨"OR00005"⟩, ⟨"OR00002"⟩] = "OR00003" ∧
    generateOrderIdSpec [⟨"OR00005"⟩, ⟨"OR00002"⟩] = "OR00006" ∧
    generateOrderId [⟨"OR00005"⟩, ⟨"OR00002"⟩] ≠
      generateOrderIdSpec [⟨"OR00005"⟩, ⟨"OR00002"⟩] := by
  refine ⟨by decide, by decide, by decide⟩

/-- C4 amended: generateOrderId, generateDepositId and generateWithdrawalId
return the two-letter prefix followed by the zero-padded successor of the
numeric suffix of the LAST stored identifier of that entity type (OR00001,
DP00001, WD00001 when no records exist); this agrees with the highest-suffix
rule of the spec exactly when the last suffix dominates all stored suffixes. -/
theorem C4_generator_last (l : List StoredOrder) (ld : List StoredDeposit)
    (lw : List StoredWithdrawal) (o : StoredOrder) (od : StoredDeposit)
    (ow : StoredWithdrawal) (n : Int) :
    (generateOrderId [] = "OR00001" ∧ generateDepositId [] = "DP00001" ∧
      generateWithdrawalId [] = "WD00001") ∧
    (l.getLast? = some o →
      jsParseInt (jsReplaceFirst o.orderId "OR" "") = some n →
      generateOrderId l = "OR" ++ jsPadStart 5 '0' (toString (n + 1))) ∧
    (ld.getLast? = some od →
      jsParseInt (jsReplaceFirst od.depositId "DP" "") = some n →
      generateDepositId ld = "DP" ++ jsPadStart 5 '0' (toString (n + 1))) ∧
    (lw.getLast? = some ow →
      jsParseInt (jsReplaceFirst ow.withdrawalId "WD" "") = some n →
      generateWithdrawalId lw = "WD" ++ jsPadStart 5 '0' (toString (n + 1))) ∧
    (l.getLast? = some o →
      jsParseInt (jsReplaceFirst o.orderId "OR" "") = some n →
      0 ≤ n →
      (∀ o2 ∈ l, ∃ k, jsParseInt (jsReplaceFirst o2.orderId "OR" "") = some k ∧
        k ≤ n) →
      generateOrderIdSpec l = generateOrderId l) := by
  refine ⟨⟨by decide, by decide, by decide⟩, ?_, ?_, ?_, ?_⟩
  · intro h1 h2
    simp [generateOrderId, renderNextId, h1, h2]
  · intro h1 h2
    simp [generateDepositId, renderNextId, h1, h2]
  · intro h1 h2
    simp [generateWithdrawalId, renderNextId, h1, h2]
  · intro h1 h2 h0 hub
    have hmem : n ∈ l.filterMap
        (fun o2 => jsParseInt (jsReplaceFirst o2.orderId "OR" "")) := by
      exact List.mem_filterMap.mpr ⟨o, List.mem_of_mem_getLast? h1, h2⟩
    have hub2 : ∀ x ∈ l.filterMap
        (fun o2 => jsParseInt (jsReplaceFirst o2.orderId "OR" "")), x ≤ n := by
      intro x hx
      rcases List.mem_filterMap.mp hx with ⟨o2, ho2, hpx⟩
      rcases hub o2 ho2 with ⟨k, hk, hkn⟩
      rw [hpx] at hk
      injection hk with hk2
      omega
    have hfold := foldl_max_eq _ n hmem hub2 h0
    simp [generateOrderIdSpec, generateOrderId, renderNextId, h1, h2, hfold]

/-- Witness for C4: with a single stored order OR00007 the next generated
order identifier is OR00008. -/
theorem C4_generator_last_witness :
    generateOrderId [⟨"OR00007"⟩] = "OR" ++ jsPadStart 5 '0' (toString (7 + 1 : Int)) :=
  (C4_generator_last [⟨"OR00007"⟩] [] [] ⟨"OR00007"⟩ ⟨"DP00001"⟩ ⟨"WD00001"⟩
    7).2.1 (by decide) (by decide)

/-- C5: tolerance of an unresolvable shop id is per entity type — the
per-row withdrawal flow accepts such rows, substituting the placeholder
client name and agent on the produced record, while the deposit and order
flows reject such rows with an error-count increment; and on the concrete
scenario (zero clients, rows S1,2023-01-01,100.00,Crypto and
S2,bad,-5,Unknown) the withdrawal run completes with counters 1 and 1 and a
single committed record of amount 100 with placeholder client fields. -/
theorem C5_shop_tolerance (clients : List Client) (d m : DateOracle)
    (ixw ixd : WIdx) (ixo : OIdx) (l : String) (r : WRecord) :
    ((∀ s, cellAt (cellsOf l) ixw.shopId = some s →
        clients.find? (fun c => c.shopId == s) = none) →
      wClassify clients d ixw l = .valid r →
      r.clientName = "Unknown Client" ∧ r.agent = "Unknown Agent") ∧
    (jsTrim l ≠ "" →
      (∀ s, cellAt (cellsOf l) ixd.shopId = some s →
        clients.find? (fun c => c.shopId == s) = none) →
      dClassify clients m ixd l = .invalid) ∧
    (jsTrim l ≠ "" →
      (∀ s, cellAt (cellsOf l) ixo.shopId = some s →
        clients.find? (fun c => c.shopId == s) = none) →
      oClassify clients ixo l = .invalid) ∧
    wHandleImport [] dateOracleA
      "shop id,date,amount,payment mode\nS1,2023-01-01,100.00,Crypto\nS2,bad,-5,Unknown" =
      .completed ⟨1, 1,
        [⟨some "S1", "Unknown Client", "Unknown Agent", "2023-01-01", 100,
          "Crypto"⟩]⟩ := by
  refine ⟨fun hf hv => wClassify_unknownShop clients d ixw l r hf hv,
    fun hb hf => dClassify_unknownShop clients m ixd l hb hf,
    fun hb hf => oClassify_unknownShop clients ixo l hb hf,
    by decide⟩

/-- Witness for C5: with no stored clients, a non-blank deposit row is
rejected because its shop id resolves to no client. -/
theorem C5_shop_tolerance_witness :
    dClassify [] dateOracleB ⟨0, 1, 2, 3⟩ "S2,01/01/2023,50,Crypto" = .invalid :=
  (C5_shop_tolerance [] dateOracleA dateOracleB ⟨0, 1, 2, 3⟩ ⟨0, 1, 2, 3⟩
    ⟨0, 1, 2, 3, 4⟩ "S2,01/01/2023,50,Crypto"
    ⟨none, "", "", "", 0, ""⟩).2.1 (by decide) (fun s _ => rfl)

/-- C6: in every bulk import flow a row whose amount (price, total deposits)
cell parses to NaN or to a negative number is rejected with an error-count
increment and never becomes a record, and consequently no record any run
hands to the store carries a negative amount or price. -/
theorem C6_negative_rejected (clients : List Client) (d m : DateOracle)
    (ixw : WIdx) (ixo : OIdx) (ixa : AIdx) (l csv : String) :
    (jsTrim l ≠ "" →
      (jsParseFloatCell (cellAt (cellsOf l) ixw.amount) = none ∨
        ∃ q, jsParseFloatCell (cellAt (cellsOf l) ixw.amount) = some q ∧ q < 0) →
      wClassify clients d ixw l = .invalid ∧
      wbClassify clients d ixw l = .invalid ∧
      dClassify clients m ixw l = .invalid) ∧
    (jsTrim l ≠ "" →
      (jsParseFloatCell (cellAt (cellsOf l) ixo.price) = none ∨
        ∃ q, jsParseFloatCell (cellAt (cellsOf l) ixo.price) = some q ∧ q < 0) →
      oClassify clients ixo l = .invalid) ∧
    (jsTrim l ≠ "" →
      (jsParseFloatCell (cellAt (cellsOf l) ixa.totalDeposits) = none ∨
        ∃ q, jsParseFloatCell (cellAt (cellsOf l) ixa.totalDeposits) = some q ∧
          q < 0) →
      aClassify ixa l = .invalid) ∧
    (∀ r ∈ (wHandleImport clients d csv).committed, 0 ≤ r.amount) ∧
    (∀ r ∈ (wbHandleImport clients d csv).committed, 0 ≤ r.amount) ∧
    (∀ r ∈ (dHandleImport clients m csv).committed, 0 ≤ r.amount) ∧
    (∀ r ∈ (oHandleImport clients csv).committed, 0 ≤ r.price) ∧
    (∀ r ∈ (aHandleImport csv).committed, 0 ≤ r.totalDeposits) := by
  refine ⟨fun hb hbad => ⟨wClassify_badAmount clients d ixw l hb hbad,
      wbClassify_badAmount clients d ixw l hb hbad,
      dClassify_badAmount clients m ixw l hb hbad⟩,
    fun hb hbad => oClassify_badPrice clients ixo l hb hbad,
    fun hb hbad => aClassify_badDeposits ixa l hb hbad,
    ?_, ?_, ?_, ?_, ?_⟩
  · intro r hr
    rcases importWith_committed_valid _ _ _ _ r hr with ⟨h2, dl, _, lx, _, hv⟩
    exact le_of_lt (wClassify_valid_amount clients d (wIdxOf h2) lx r hv)
  · intro r hr
    rcases importWith_committed_valid _ _ _ _ r hr with ⟨h2, dl, _, lx, _, hv⟩
    exact le_of_lt (wbClassify_valid_amount clients d (wIdxOf h2) lx r hv)
  · intro r hr
    rcases importWith_committed_valid _ _ _ _ r hr with ⟨h2, dl, _, lx, _, hv⟩
    exact le_of_lt (dClassify_valid_amount clients m (wIdxOf h2) lx r hv)
  · intro r hr
    rcases importWith_committed_valid _ _ _ _ r hr with ⟨h2, dl, _, lx, _, hv⟩
    exact le_of_lt (oClassify_valid_price clients (oIdxOf h2) lx r hv)
  · intro r hr
    rcases importWith_committed_valid _ _ _ _ r hr with ⟨h2, dl, _, lx, _, hv⟩
    exact (aClassify_valid_nonneg (aIdxOf h2) lx r hv).2.2

/-- Witness for C6: a withdrawal row with amount -5 is rejected. -/
theorem C6_negative_rejected_witness :
    wClassify [] dateOracleA ⟨0, 1, 2, 3⟩ "S1,2023-01-01,-5,Crypto" = .invalid :=
  ((C6_negative_rejected [] dateOracleA dateOracleA ⟨0, 1, 2, 3⟩
    ⟨0, 1, 2, 3, 4⟩ ⟨0, 1, 2, 3⟩ "S1,2023-01-01,-5,Crypto" "").1 (by decide)
    (Or.inr ⟨-5, by decide, by decide⟩)).1

/-- Counterexample to C7 as stated: the deposit flow has a payment-mode
column but consults no synonym table — the declared synonym crypto (which
the withdrawal normalization maps to Crypto) is rejected by the deposit
import, which ends with zero successes and one error. -/
theorem C7_counterexample :
    wNormalizePaymentMode "crypto" = some "Crypto" ∧
    dHandleImport [⟨"S1", "Alice", "Bob"⟩] dateOracleB
      "shop id,date,amount,payment mode\nS1,01/01/2023,100,crypto" =
      .completed ⟨0, 1, []⟩ := by
  refine ⟨by decide, by decide⟩

/-- C7 amended: the two withdrawal flows try an exact case-sensitive match
against the closed label set and then a lower-cased synonym table, rejecting
the row when both fail, and that normalization is idempotent — every label
it produces is canonical and maps to itself, and each declared synonym maps
to its canonical label; the deposit flow instead accepts only an exact
canonical label and rejects anything else, synonyms included. -/
theorem C7_payment_normalization (clients : List Client) (d m : DateOracle)
    (ix : WIdx) (l p c : String) (r : WRecord) :
    (wNormalizePaymentMode p = some c →
      canonicalModes.contains c = true ∧ wNormalizePaymentMode c = some c) ∧
    (∀ s ∈ canonicalModes, wNormalizePaymentMode s = some s) ∧
    (∀ s ∈ cryptoSyns, wNormalizePaymentMode s = some "Crypto") ∧
    (∀ s ∈ onlineBankingSyns, wNormalizePaymentMode s = some "Online Banking") ∧
    (∀ s ∈ ewalletSyns, wNormalizePaymentMode s = some "Ewallet") ∧
    (wClassify clients d ix l = .valid r →
      wNormalizePaymentMode r.paymentMode = some r.paymentMode) ∧
    (jsTrim l ≠ "" →
      (∀ q, cellAt (cellsOf l) ix.paymentMode = some q →
        canonicalModes.contains q = false) →
      dClassify clients m ix l = .invalid) := by
  refine ⟨fun h => ⟨wNormalize_canonical p c h, wNormalize_idem p c h⟩,
    by decide, by decide, by decide, by decide,
    fun hv => wClassify_valid_mode clients d ix l r hv,
    fun hb hq => dClassify_paymentExact clients m ix l hb hq⟩

/-- Witness for C7: btc normalizes to Crypto, which is canonical and maps to
itself again. -/
theorem C7_payment_normalization_witness :
    canonicalModes.contains "Crypto" = true ∧
    wNormalizePaymentMode "Crypto" = some "Crypto" :=
  (C7_payment_normalization [] dateOracleA dateOracleA ⟨0, 1, 2, 3⟩ ""
    "btc" "Crypto" ⟨none, "", "", "", 0, ""⟩).1 (by decide)

/-- Counterexample to C8 as stated: in the order import an unparseable date
cell is not replaced by the current date — the raw text is stored on the
committed record (the flow never consults the current date at all), here the
literal text notadate. -/
theorem C8_counterexample :
    oHandleImport [⟨"S1", "Alice", "Bob"⟩]
      "shop id,date,location,price,status\nS1,notadate,Paris,50,Pending" =
      .completed ⟨1, 0,
        [⟨"S1", "Alice", "Bob", some "notadate", some "Paris", 50, "Pending"⟩]⟩ := by
  decide

/-- C8 amended: a date cell that fails to parse is never a reason to reject
a row — the status of every row of the withdrawal and deposit flows is
independent of the date oracle — and the withdrawal and deposit flows
substitute the current date (the batched variant the current instant) for
the unparseable value, while the order flow stores the raw cell text
unchanged (null when the cell is empty or missing). -/
theorem C8_bad_dates (clients : List Client) (d d2 m m2 : DateOracle)
    (ixw : WIdx) (ixo : OIdx) (l : String) (rw : WRecord) (rb : BWRecord)
    (rd : DRecord) (ro : ORecord) :
    (statusOf (wClassify clients d ixw l) = statusOf (wClassify clients d2 ixw l)) ∧
    (statusOf (wbClassify clients d ixw l) = statusOf (wbClassify clients d2 ixw l)) ∧
    (statusOf (dClassify clients m ixw l) = statusOf (dClassify clients m2 ixw l)) ∧
    (dateUnparsed d (cellAt (cellsOf l) ixw.date) = true →
      wClassify clients d ixw l = .valid rw → rw.date = d.today) ∧
    (dateUnparsed d (cellAt (cellsOf l) ixw.date) = true →
      wbClassify clients d ixw l = .valid rb → rb.date = none) ∧
    (dateUnparsed m (cellAt (cellsOf l) ixw.date) = true →
      dClassify clients m ixw l = .valid rd → rd.date = m.today) ∧
    (oClassify clients ixo l = .valid ro →
      ro.date = (match cellAt (cellsOf l) ixo.date with
        | none => none
        | some s => if s = "" then none else some s)) := by
  refine ⟨wClassify_status_oracle clients d d2 ixw l,
    wbClassify_status_oracle clients d d2 ixw l,
    dClassify_status_oracle clients m m2 ixw l,
    fun hd hv => wClassify_badDate_today clients d ixw l rw hd hv,
    fun hd hv => wbClassify_badDate_now clients d ixw l rb hd hv,
    fun hd hv => dClassify_badDate_today clients m ixw l rd hd hv,
    fun hv => oClassify_valid_date_raw clients ixo l ro hv⟩

/-- Witness for C8: a withdrawal row whose date cell reads bad produces a
record carrying the formatted current date of the oracle. -/
theorem C8_bad_dates_witness :
    (⟨some "S1", "Unknown Client", "Unknown Agent", "2026-10-12", 5,
      "Crypto"⟩ : WRecord).date = dateOracleA.today :=
  (C8_bad_dates [] dateOracleA dateOracleA dateOracleA dateOracleA
    ⟨0, 1, 2, 3⟩ ⟨0, 1, 2, 3, 4⟩ "S1,bad,5,Crypto"
    ⟨some "S1", "Unknown Client", "Unknown Agent", "2026-10-12", 5, "Crypto"⟩
    bwSample ⟨"", "", "", "", 0, ""⟩
    ⟨"", "", "", none, none, 0, ""⟩).2.2.2.1 (by decide) (by decide)

/-- C9: every bulk import flow — both withdrawal variants, deposits, orders
and agents — silently skips blank or whitespace-only data lines: such a line
changes neither counter and produces no record, so a deposit run over three
data lines of which one is whitespace-only ends with counters summing to 2,
strictly fewer than the number of data lines. -/
theorem C9_blank_lines (clients : List Client) (d m : DateOracle)
    (ixw ixd : WIdx) (ixo : OIdx) (ixa : AIdx) (stw : ImportState WRecord)
    (stb : ImportState BWRecord) (st : ImportState DRecord)
    (st2 : ImportState ORecord) (sta : ImportState ARecord) (l : String)
    (ls : List String) :
    (jsTrim l = "" →
      runLines (wClassify clients d ixw) stw (l :: ls) =
        runLines (wClassify clients d ixw) stw ls) ∧
    (jsTrim l = "" →
      runLines (wbClassify clients d ixw) stb (l :: ls) =
        runLines (wbClassify clients d ixw) stb ls) ∧
    (jsTrim l = "" →
      runLines (dClassify clients m ixd) st (l :: ls) =
        runLines (dClassify clients m ixd) st ls) ∧
    (jsTrim l = "" →
      runLines (oClassify clients ixo) st2 (l :: ls) =
        runLines (oClassify clients ixo) st2 ls) ∧
    (jsTrim l = "" →
      runLines (aClassify ixa) sta (l :: ls) =
        runLines (aClassify ixa) sta ls) ∧
    (parseCsv wRequired
        "shop id,date,amount,payment mode\nS1,01/01/2023,100,Crypto\n   \nS2,01/01/2023,50,Ewallet" =
      .okHeader ["shop id", "date", "amount", "payment mode"]
        ["S1,01/01/2023,100,Crypto", "   ", "S2,01/01/2023,50,Ewallet"] ∧
      dHandleImport [⟨"S1", "Alice", "Bob"⟩] dateOracleB
        "shop id,date,amount,payment mode\nS1,01/01/2023,100,Crypto\n   \nS2,01/01/2023,50,Ewallet" =
        .completed ⟨1, 1, [⟨"S1", "Alice", "Bob", "2023-01-01", 100, "Crypto"⟩]⟩ ∧
      1 + 1 < 3) := by
  refine ⟨?_, ?_, ?_, ?_, ?_, by decide, by decide, by decide⟩
  · intro h
    have hs : wClassify clients d ixw l = .skip :=
      (wClassify_skip_iff clients d ixw l).mpr h
    simp only [runLines, hs]
  · intro h
    have hs : wbClassify clients d ixw l = .skip :=
      (wbClassify_skip_iff clients d ixw l).mpr h
    simp only [runLines, hs]
  · intro h
    have hs : dClassify clients m ixd l = .skip :=
      (dClassify_skip_iff clients m ixd l).mpr h
    simp only [runLines, hs]
  · intro h
    have hs : oClassify clients ixo l = .skip :=
      (oClassify_skip_iff clients ixo l).mpr h
    simp only [runLines, hs]
  · intro h
    have hs : aClassify ixa l = .skip :=
      (aClassify_skip_iff ixa l).mpr h
    simp only [runLines, hs]

/-- Witness for C9: a whitespace-only first line leaves the deposit loop
state untouched. -/
theorem C9_blank_lines_witness :
    runLines (dClassify [] dateOracleB ⟨0, 1, 2, 3⟩) ⟨0, 0, []⟩
      ["   ", "S1,01/01/2023,5,Crypto"] =
    runLines (dClassify [] dateOracleB ⟨0, 1, 2, 3⟩) ⟨0, 0, []⟩
      ["S1,01/01/2023,5,Crypto"] :=
  (C9_blank_lines [] dateOracleB dateOracleB ⟨0, 1, 2, 3⟩ ⟨0, 1, 2, 3⟩
    ⟨0, 1, 2, 3, 4⟩ ⟨0, 1, 2, 3⟩ ⟨0, 0, []⟩ ⟨0, 0, []⟩ ⟨0, 0, []⟩ ⟨0, 0, []⟩
    ⟨0, 0, []⟩ "   " ["S1,01/01/2023,5,Crypto"]).2.2.1 (by decide)

/-- Counterexample to C10 as stated: the cell-count guard of the batched
withdrawal flow does not prevent every out-of-range cell access — with a
five-column header whose payment-mode column is at index 4, a non-blank row
of exactly 4 cells passes the guard and the flow still reads cell index 4,
beyond the row length, aborting the run on the resulting type error. -/
theorem C10_counterexample :
    (cellsOf "5,S1,2023-01-01,q").length = 4 ∧
    (wIdxOf (headerOf
      "amount,shop id,date,x,payment mode\n5,S1,2023-01-01,q")).paymentMode = 4 ∧
    wbHandleImport [] dateOracleA
      "amount,shop id,date,x,payment mode\n5,S1,2023-01-01,q" = .aborted [] := by
  refine ⟨by decide, by decide, by decide⟩

/-- C10 amended: in the batched withdrawal flow every non-blank data row
splitting into fewer than 4 cells increments the error counter and is
skipped before any cell is read by column index (though rows of 4 or more
cells can still be indexed beyond their length when a required column sits
at a higher header index); the per-row withdrawal flow performs no such
cell-count guard: the same two-cell row it accepts as a record is counted as
an error by the batched variant. -/
theorem C10_short_row_guard (clients : List Client) (d : DateOracle)
    (ix : WIdx) (l : String) :
    (jsTrim l ≠ "" → (cellsOf l).length < 4 →
      wbClassify clients d ix l = .invalid) ∧
    wHandleImport [] dateOracleA "amount,payment mode,shop id,date\n5,Crypto" =
      .completed ⟨1, 0,
        [⟨none, "Unknown Client", "Unknown Agent", "2026-10-12", 5, "Crypto"⟩]⟩ ∧
    wbHandleImport [] dateOracleA "amount,payment mode,shop id,date\n5,Crypto" =
      .completed ⟨0, 1, []⟩ := by
  refine ⟨fun hb hlen => wbClassify_short_invalid clients d ix l hb hlen,
    by decide, by decide⟩

/-- Witness for C10: a two-cell row is rejected by the batched withdrawal
classifier. -/
theorem C10_short_row_guard_witness :
    wbClassify [] dateOracleA ⟨0, 1, 2, 3⟩ "S1,5" = .invalid :=
  (C10_short_row_guard [] dateOracleA ⟨0, 1, 2, 3⟩ "S1,5").1 (by decide)
    (by decide)

end Hotel
